import Mathlib

/-!
Verification development for the real-estate analytics ETL pipeline.

The development shallowly embeds the core of the pipeline:
- `cloud-functions/etl-function/transform.py` (`normalize_dataframe`),
- `cloud-functions/etl-function/load.py` (`create_dimension_tables`,
  `categorize_property`, `load_fact_table`),
- `cloud-functions/analytics-function/main.py` (`execute_analytical_queries`,
  `generate_html_report`, `generate_report`),
- the duplicate entry point `src/main.py` (`process_csv`).

Modelling conventions:
- pandas numeric cells are rationals (`ℚ`); a missing cell (NaN) is `none` of
  `Option ℚ`.  A pandas comparison against NaN is `false`, which is what the
  `Option`-aware comparison helpers below compute.
- timestamps (`pd.Timestamp`, `datetime`) are day numbers / abstract integers;
  a calendar day is its day number (days since 1970-01-01, the pandas epoch),
  and the Gregorian field extraction (`.dt.year`, `.dt.strftime` and friends)
  is the standard civil-from-days algorithm.
- BigQuery I/O (`client.load_table_from_dataframe`) only persists the
  dataframes that the functions also return; the embedding keeps the returned
  tables and drops the network call.
- `datetime.utcnow()` is an explicit parameter `now` threaded through the
  functions that stamp `created_at` / `updated_at`.
-/

namespace RealEstate

/-! ### Python-style list and string helpers -/

/-- Bool test that `needle` is an initial segment of `hay`. -/
def listStartsWith : List Char → List Char → Bool
  | _, [] => true
  | [], _ :: _ => false
  | a :: as, b :: bs => a == b && listStartsWith as bs

/-- Bool test that `needle` occurs contiguously inside `hay`
(Python's `needle in hay` on strings). -/
def listContainsSub : List Char → List Char → Bool
  | [], needle => needle.isEmpty
  | c :: t, needle => listStartsWith (c :: t) needle || listContainsSub t needle

/-- Python `str.lower()` as a character list. -/
def pyLowerChars (s : String) : List Char := s.toList.map Char.toLower

/-- Python whitespace as recognised by `str.strip()` (ASCII fragment). -/
def isPySpace (c : Char) : Bool :=
  c == ' ' || c == '\t' || c == '\n' || c == '\r' || c == '\x0b' || c == '\x0c'

/-- Python `str.strip()`. -/
def pyStrip (s : String) : String :=
  String.mk (((s.toList.dropWhile isPySpace).reverse.dropWhile isPySpace).reverse)

/-- Worker for `pyTitle`: the flag records whether the previous character was
alphabetic. -/
def pyTitleGo : Bool → List Char → List Char
  | _, [] => []
  | prevAlpha, c :: cs =>
    (if c.isAlpha then (if prevAlpha then c.toLower else c.toUpper) else c) ::
      pyTitleGo c.isAlpha cs

/-- Python `str.title()` (ASCII fragment): uppercase each letter that starts a
run of letters, lowercase the rest. -/
def pyTitle (s : String) : String := String.mk (pyTitleGo false s.toList)

/-- Split a character list at the first comma, when there is one. -/
def breakAtComma : List Char → Option (List Char × List Char)
  | [] => none
  | c :: cs =>
    if c == ',' then some ([], cs)
    else
      match breakAtComma cs with
      | some (a, b) => some (c :: a, b)
      | none => none

/-- Python `s.split(sep, 1)` for a comma separator: the part before the
first comma and, when a comma exists, the part after it. -/
def splitFirstComma (s : String) : String × Option String :=
  match breakAtComma s.toList with
  | some (a, b) => (String.mk a, some (String.mk b))
  | none => (s, none)

/-- Python `(a comma) in s`, i.e. pandas `str.contains` for a comma. -/
def hasComma (s : String) : Bool := (breakAtComma s.toList).isSome

/-- pandas `drop_duplicates`: keep the first occurrence of each value, in
order of first appearance. -/
def dedupFirst {α : Type} [DecidableEq α] : List α → List α
  | [] => []
  | x :: xs => x :: (dedupFirst xs).filter (fun y => decide (y ≠ x))

/-- Attach consecutive integers starting at `k` to the entries of a list
(the `range(1, len+1)` id columns). -/
def numberFrom {α β : Type} (f : ℕ → α → β) : ℕ → List α → List β
  | _, [] => []
  | k, x :: xs => f k x :: numberFrom f (k + 1) xs

/-- Minimum of a list of integers (`Series.min`), `none` on an empty list. -/
def listMin : List ℤ → Option ℤ
  | [] => none
  | x :: xs => some (match listMin xs with | none => x | some m => min x m)

/-- Maximum of a list of integers (`Series.max`), `none` on an empty list. -/
def listMax : List ℤ → Option ℤ
  | [] => none
  | x :: xs => some (match listMax xs with | none => x | some m => max x m)

/-- Consecutive day numbers `d, d+1, ..., d+n-1` (`pd.date_range` at daily
frequency, given the start day and the number of days). -/
def dateSpine : ℤ → ℕ → List ℤ
  | _, 0 => []
  | d, n + 1 => d :: dateSpine (d + 1) n

/-! ### Gregorian calendar on day numbers -/

/-- Gregorian (year, month, day) of a day number counted from 1970-01-01,
by the standard civil-from-days algorithm. -/
def civilFromDays (z0 : ℤ) : ℤ × ℤ × ℤ :=
  let z := z0 + 719468
  let era := Int.fdiv z 146097
  let doe := z - era * 146097
  let yoe := Int.fdiv (doe - Int.fdiv doe 1460 + Int.fdiv doe 36524 - Int.fdiv doe 146096) 365
  let y := yoe + era * 400
  let doy := doe - (365 * yoe + Int.fdiv yoe 4 - Int.fdiv yoe 100)
  let mp := Int.fdiv (5 * doy + 2) 153
  let d := doy - Int.fdiv (153 * mp + 2) 5 + 1
  let m := mp + (if mp < 10 then 3 else -9)
  (y + (if m ≤ 2 then 1 else 0), m, d)

/-- The `strftime` pattern that renders year, month and day as one integer of
the shape YYYYMMDD. -/
def yyyymmdd (z : ℤ) : ℤ :=
  let c := civilFromDays z
  c.1 * 10000 + c.2.1 * 100 + c.2.2

/-- pandas `dt.dayofweek`: Monday is 0, Sunday is 6 (1970-01-01 was a
Thursday). -/
def dayOfWeek (z : ℤ) : ℤ := (z + 3) % 7

/-- Full English month name (`strftime` with the month-name pattern). -/
def monthName (m : ℤ) : String :=
  ["January", "February", "March", "April", "May", "June", "July",
    "August", "September", "October", "November", "December"].getD (m - 1).toNat ""

/-- Full English day name (`strftime` with the day-name pattern), indexed
Monday-first to match `dayOfWeek`. -/
def dayName (w : ℤ) : String :=
  ["Monday", "Tuesday", "Wednesday", "Thursday", "Friday", "Saturday",
    "Sunday"].getD w.toNat ""

/-! ### pandas quantiles and Python rounding -/

/-- The interpolation position `q * (n - 1)` of pandas
`Series.quantile(q)` over `n` sorted values. -/
def qpos (q : ℚ) (n : ℕ) : ℚ := q * ((n : ℚ) - 1)

/-- The index of the order statistic at or below the interpolation
position. -/
def qidx (q : ℚ) (n : ℕ) : ℕ := (Rat.floor (qpos q n)).toNat

/-- Linear interpolation between the order statistics of an already sorted
value list, at position `q * (n - 1)`. -/
def quantileInterp (q : ℚ) (s : List ℚ) : ℚ :=
  s.getD (qidx q s.length) 0
    + (qpos q s.length - (qidx q s.length : ℚ))
      * (s.getD (qidx q s.length + 1) 0 - s.getD (qidx q s.length) 0)

/-- pandas `Series.quantile(q)` with the default linear interpolation:
sort the values, take position `q * (n - 1)`, and interpolate between the two
neighbouring order statistics.  The value on an empty series (NaN in pandas)
is modelled as 0; the pipeline never consumes it. -/
def quantileQ (q : ℚ) (xs : List ℚ) : ℚ :=
  let s := List.insertionSort (· ≤ ·) xs
  if s.isEmpty then 0 else quantileInterp q s

/-- pandas `Series.median()` over the present (non-NaN) values of a column;
`none` when no value is present. -/
def medianOpt (xs : List (Option ℚ)) : Option ℚ :=
  let vs := xs.filterMap id
  if vs.isEmpty then none else some (quantileQ (1/2) vs)

/-- Round half to even at integer precision (Python `round`). -/
def roundHalfEven (x : ℚ) : ℤ :=
  let f := Rat.floor x
  let r := x - (f : ℚ)
  if r < 1/2 then f
  else if 1/2 < r then f + 1
  else if f % 2 = 0 then f else f + 1

/-- `Series.round(2)`: round half to even at two decimal places. -/
def roundTo2 (x : ℚ) : ℚ := (roundHalfEven (x * 100) : ℚ) / 100

/-- Option-aware strict comparison against a constant: pandas `col > c`
on a float column is `false` at a NaN cell. -/
def optGt (x : Option ℚ) (c : ℚ) : Bool :=
  match x with
  | some v => decide (c < v)
  | none => false

/-- Option-aware non-strict comparison against a constant: pandas `col >= c`
on a float column is `false` at a NaN cell. -/
def optGe (x : Option ℚ) (c : ℚ) : Bool :=
  match x with
  | some v => decide (c ≤ v)
  | none => false

instance exceptDecEq {ε α : Type} [DecidableEq ε] [DecidableEq α] :
    DecidableEq (Except ε α) := fun a b =>
  match a, b with
  | .error e, .error f =>
    if h : e = f then isTrue (by rw [h])
    else isFalse (by intro hh; cases hh; exact h rfl)
  | .ok x, .ok y =>
    if h : x = y then isTrue (by rw [h])
    else isFalse (by intro hh; cases hh; exact h rfl)
  | .error _, .ok _ => isFalse (by intro hh; cases hh)
  | .ok _, .error _ => isFalse (by intro hh; cases hh)

namespace ETL

/-! ### `transform.py` (cloud-functions/etl-function): `normalize_dataframe`

The raw batch is the dataframe read from an uploaded CSV with exactly the
required columns `list_date, location, property_type, price, bedrooms,
bathrooms, sqft` (so the `listing_status` / `lot_size` columns are absent and
`normalize_dataframe` adds them).  A cell is `none` when it is missing or,
for `list_date`, when `pd.to_datetime(..., errors := coerce)` fails to parse
it; a parsed date is its day number. -/

structure RawRow where
  list_date : Option ℤ
  location : Option String
  property_type : Option String
  price : Option ℚ
  bedrooms : Option ℚ
  bathrooms : Option ℚ
  sqft : Option ℚ
deriving DecidableEq, Repr

/-- A row of the normalized dataframe returned by `normalize_dataframe`. -/
structure NormRow where
  list_date : ℤ
  location : String
  property_type : String
  price : ℚ
  bedrooms : ℚ
  bathrooms : ℚ
  sqft : ℚ
  price_per_sqft : ℚ
  location_key : String
  property_type_key : String
  date_key : ℤ
  created_at : ℤ
  updated_at : ℤ
  listing_status : String
  lot_size : Option ℚ
deriving DecidableEq, Repr

/-- STEP 1: `pd.to_datetime(errors := coerce)` followed by
`dropna(subset := list_date)` — drop the rows whose date failed to parse. -/
def dropInvalidDates (df : List RawRow) : List RawRow :=
  df.filter (fun r => r.list_date.isSome)

/-- STEP 2 (numeric): median imputation of `price`, `sqft`, `bedrooms`,
`bathrooms`; each column's median is computed over its present values of the
current (date-filtered) batch.  STEP 2 (categorical): missing `location` /
`property_type` become the literal "Unknown". -/
def imputeRow (mPrice mSqft mBeds mBaths : Option ℚ) (r : RawRow) : RawRow :=
  { r with
    price := r.price <|> mPrice
    sqft := r.sqft <|> mSqft
    bedrooms := r.bedrooms <|> mBeds
    bathrooms := r.bathrooms <|> mBaths
    location := some (r.location.getD "Unknown")
    property_type := some (r.property_type.getD "Unknown") }

def imputeMissing (df : List RawRow) : List RawRow :=
  let mPrice := medianOpt (df.map (·.price))
  let mSqft := medianOpt (df.map (·.sqft))
  let mBeds := medianOpt (df.map (·.bedrooms))
  let mBaths := medianOpt (df.map (·.bathrooms))
  df.map (imputeRow mPrice mSqft mBeds mBaths)

/-- STEP 3: `str.strip().str.title()` on `location` and `property_type`. -/
def standardizeText (df : List RawRow) : List RawRow :=
  df.map (fun r =>
    { r with
      location := r.location.map (fun s => pyTitle (pyStrip s))
      property_type := r.property_type.map (fun s => pyTitle (pyStrip s)) })

/-- STEP 4: `pd.to_numeric(errors := coerce)` keeps the (already numeric)
cells, then `dropna(subset := [price, sqft])` removes the rows whose critical
fields are still missing (only possible when a whole column was empty, so its
imputation median was itself NaN). -/
def dropInvalidCritical (df : List RawRow) : List RawRow :=
  df.filter (fun r => r.price.isSome && r.sqft.isSome)

/-- The dataframe exactly as it stands immediately before STEP 5 (outlier
removal): STEP 1 through STEP 4 applied in the source's order. -/
def preOutlier (df : List RawRow) : List RawRow :=
  dropInvalidCritical (standardizeText (imputeMissing (dropInvalidDates df)))

/-- The price column on which STEP 5 computes its quartiles. -/
def pricesPre (df : List RawRow) : List ℚ :=
  (preOutlier df).filterMap (·.price)

def q1 (df : List RawRow) : ℚ := quantileQ (1/4) (pricesPre df)

def q3 (df : List RawRow) : ℚ := quantileQ (3/4) (pricesPre df)

def iqr (df : List RawRow) : ℚ := q3 df - q1 df

def lowerBound (df : List RawRow) : ℚ := q1 df - 3/2 * iqr df

def upperBound (df : List RawRow) : ℚ := q3 df + 3/2 * iqr df

/-- STEP 5 membership test: a row is an outlier when
`price < lower_bound` or `price > upper_bound` (NaN compares false). -/
def outlierMask (lo hi : ℚ) (r : RawRow) : Bool :=
  match r.price with
  | some p => decide (p < lo) || decide (hi < p)
  | none => false

/-- STEP 5: `df[~outliers_mask]`. -/
def removeOutliers (df : List RawRow) : List RawRow :=
  (preOutlier df).filter (fun r => !outlierMask (lowerBound df) (upperBound df) r)

/-- The four sanity filters that follow STEP 5, in the source's order:
`price > 0`, `sqft > 0`, `bedrooms >= 0`, `bathrooms > 0`. -/
def sanityFiltered (df : List RawRow) : List RawRow :=
  ((((removeOutliers df).filter (fun r => optGt r.price 0)).filter
      (fun r => optGt r.sqft 0)).filter
      (fun r => optGe r.bedrooms 0)).filter
      (fun r => optGt r.bathrooms 0)

/-- STEP 6 to STEP 8 on one surviving row: `price_per_sqft` rounded to two
decimals, the dimension keys, the `created_at`/`updated_at` stamps and the
default `listing_status`/`lot_size` columns.  Every surviving row has all
seven fields present, so the catch-all branch is never taken. -/
def finishRow (now : ℤ) (r : RawRow) : Option NormRow :=
  match r.list_date, r.location, r.property_type, r.price, r.bedrooms,
      r.bathrooms, r.sqft with
  | some ld, some loc, some pt, some p, some bd, some ba, some sq =>
    some
      { list_date := ld
        location := loc
        property_type := pt
        price := p
        bedrooms := bd
        bathrooms := ba
        sqft := sq
        price_per_sqft := roundTo2 (p / sq)
        location_key := loc
        property_type_key := pt
        date_key := yyyymmdd ld
        created_at := now
        updated_at := now
        listing_status := "Active"
        lot_size := none }
  | _, _, _, _, _, _, _ => none

/-- `normalize_dataframe` (cloud-functions/etl-function/transform.py):
the whole STEP 1 – STEP 9 pipeline; when no row survives, STEP 9 raises
`ValueError("All rows were filtered out during transformation!")`. -/
def normalize_dataframe (df : List RawRow) (now : ℤ) : Except String (List NormRow) :=
  let out := (sanityFiltered df).filterMap (finishRow now)
  if out.isEmpty then .error "All rows were filtered out during transformation!"
  else .ok out

/-! ### `load.py` (cloud-functions/etl-function): dimensions and facts -/

/-- A row of `dim_location`. -/
structure LocationRow where
  location_id : ℕ
  location : String
  city : String
  state : Option String
  zip_code : Option String
  region : String
  created_at : ℤ
deriving DecidableEq, Repr

/-- A row of `dim_property_type`. -/
structure PropertyTypeRow where
  property_type_id : ℕ
  property_type : String
  type_name : String
  category : String
  created_at : ℤ
deriving DecidableEq, Repr

/-- A row of `dim_date`. -/
structure DateRow where
  date_id : ℤ
  full_date : ℤ
  year : ℤ
  month : ℤ
  month_name : String
  quarter : ℤ
  day_of_week : ℤ
  day_name : String
  is_weekend : Bool
deriving DecidableEq, Repr

/-- The dictionary of dimension dataframes returned by
`create_dimension_tables`. -/
structure DimTables where
  location : List LocationRow
  property_type : List PropertyTypeRow
  date : List DateRow
deriving DecidableEq, Repr

/-- `categorize_property` (cloud-functions/etl-function/load.py): lowercase
the type name, then run the case-insensitive substring rules in order,
first match wins. -/
def categorize_property (type_name : String) : String :=
  let type_lower := pyLowerChars type_name
  if listContainsSub type_lower "apartment".toList
      || listContainsSub type_lower "flat".toList
      || listContainsSub type_lower "studio".toList then
    "Residential-Apartment"
  else if listContainsSub type_lower "villa".toList
      || listContainsSub type_lower "house".toList then
    "Residential-House"
  else if listContainsSub type_lower "townhouse".toList then
    "Residential-Townhouse"
  else if listContainsSub type_lower "penthouse".toList then
    "Residential-Luxury"
  else
    "Other"

/-- The city/state columns of the location dimension.  The source first
tests whether ANY location of the deduplicated column contains a comma; if
so, every location is split at its first comma and both parts are stripped
(a location with no comma gets a null `state`); otherwise the whole column
is copied to `city` and `state` is null. -/
def locationCityState (anyComma : Bool) (l : String) : String × Option String :=
  if anyComma then
    match splitFirstComma l with
    | (c, some s) => (pyStrip c, some (pyStrip s))
    | (c, none) => (pyStrip c, none)
  else
    (l, none)

/-- One row of `dim_location` with its assigned surrogate id. -/
def mkLocationRow (anyComma : Bool) (now : ℤ) (i : ℕ) (l : String) : LocationRow :=
  let cs := locationCityState anyComma l
  { location_id := i
    location := l
    city := cs.1
    state := cs.2
    zip_code := none
    region := "UAE"
    created_at := now }

/-- One row of `dim_property_type` with its assigned surrogate id. -/
def mkPropertyTypeRow (now : ℤ) (i : ℕ) (t : String) : PropertyTypeRow :=
  { property_type_id := i
    property_type := t
    type_name := t
    category := categorize_property t
    created_at := now }

/-- One row of `dim_date` for the day number `d`. -/
def mkDateRow (d : ℤ) : DateRow :=
  let c := civilFromDays d
  { date_id := yyyymmdd d
    full_date := d
    year := c.1
    month := c.2.1
    month_name := monthName c.2.1
    quarter := Int.fdiv (c.2.1 - 1) 3 + 1
    day_of_week := dayOfWeek d
    day_name := dayName (dayOfWeek d)
    is_weekend := dayOfWeek d == 5 || dayOfWeek d == 6 }

/-- `create_dimension_tables` (cloud-functions/etl-function/load.py):
deduplicate the location and property-type columns keeping first-appearance
order, assign `range(1, len+1)` surrogate ids, derive the city/state and
category columns, and build the dense date spine over
`[list_date.min(), list_date.max()]`.  The BigQuery `WRITE_TRUNCATE` loads
persist exactly the returned tables and are dropped from the model. -/
def create_dimension_tables (ndf : List NormRow) (now : ℤ) : DimTables :=
  let locs := dedupFirst (ndf.map (·.location))
  let anyComma := locs.any hasComma
  let ptypes := dedupFirst (ndf.map (·.property_type))
  let dateRows :=
    match listMin (ndf.map (·.list_date)), listMax (ndf.map (·.list_date)) with
    | some a, some b => (dateSpine a ((b - a).toNat + 1)).map mkDateRow
    | _, _ => []
  { location := numberFrom (mkLocationRow anyComma now) 1 locs
    property_type := numberFrom (mkPropertyTypeRow now) 1 ptypes
    date := dateRows }

/-- A row of `fact_listings` as assembled by `load_fact_table`; the three
foreign keys come from left joins, so each is nullable. -/
structure FactRow where
  location_id : Option ℕ
  property_type_id : Option ℕ
  date_id : Option ℤ
  list_date : ℤ
  listing_status : String
  price : ℚ
  bedrooms : ℚ
  bathrooms : ℚ
  sqft : ℚ
  lot_size : Option ℚ
  price_per_sqft : ℚ
  created_at : ℤ
  updated_at : ℤ
  listing_id : ℕ
deriving DecidableEq, Repr

/-- A pandas left merge of each row of `l` against the key-matching rows of
`dim`: a row with at least one match is repeated once per matching dimension
row and carries that row's id; a row with no match is kept once with a null
id. -/
def leftJoin {α β γ : Type} (keyMatch : α → β → Bool) (getId : β → γ)
    (l : List α) (dim : List β) : List (α × Option γ) :=
  l.flatMap (fun r =>
    let ms := dim.filter (keyMatch r)
    if ms.isEmpty then [(r, none)] else ms.map (fun d => (r, some (getId d))))

/-- `load_fact_table` (cloud-functions/etl-function/load.py): left-join the
normalized batch to the three dimension tables to resolve the foreign keys,
select the fact columns, and assign `listing_id = range(1, len+1)`.  The
BigQuery `WRITE_APPEND` load persists exactly the returned rows and is
dropped from the model. -/
def load_fact_table (ndf : List NormRow) (dims : DimTables) : List FactRow :=
  let j1 := leftJoin (fun (r : NormRow) (d : LocationRow) => d.location == r.location)
    (·.location_id) ndf dims.location
  let j2 := leftJoin (fun (r : NormRow × Option ℕ) (d : PropertyTypeRow) =>
    d.property_type == r.1.property_type) (·.property_type_id) j1 dims.property_type
  let j3 := leftJoin (fun (r : (NormRow × Option ℕ) × Option ℕ) (d : DateRow) =>
    d.date_id == yyyymmdd r.1.1.list_date) (·.date_id) j2 dims.date
  numberFrom (fun i (x : ((NormRow × Option ℕ) × Option ℕ) × Option ℤ) =>
    let r := x.1.1.1
    { location_id := x.1.1.2
      property_type_id := x.1.2
      date_id := x.2
      list_date := r.list_date
      listing_status := r.listing_status
      price := r.price
      bedrooms := r.bedrooms
      bathrooms := r.bathrooms
      sqft := r.sqft
      lot_size := r.lot_size
      price_per_sqft := r.price_per_sqft
      created_at := r.created_at
      updated_at := r.updated_at
      listing_id := i }) 1 j3

/-- `process_csv` (cloud-functions/etl-function/main.py), from the point the
CSV has been parsed into a dataframe: normalize, then (only on success)
build the dimension tables and load the fact table.  A normalization error
propagates out of the function before any load is attempted. -/
def run_etl_pipeline (df : List RawRow) (now : ℤ) :
    Except String (DimTables × List FactRow) :=
  match normalize_dataframe df now with
  | .error e => .error e
  | .ok ndf =>
    let dims := create_dimension_tables ndf now
    .ok (dims, load_fact_table ndf dims)

end ETL

namespace Analytics

/-! ### `main.py` (cloud-functions/analytics-function)

The warehouse itself is external, so query execution is an oracle
`runQuery : String → Except String ℕ` giving, per query name, either the
number of records of the successful result (`df.to_dict(orient := records)`
produces that many field-complete record dicts) or the raised error.  The
report renderer never reads individual fields of a well-formed record, so
the record count is all the model needs; what it does depend on is the
SHAPE of an entry: a list of records versus the single-key error dict. -/

/-- One value of the `results` dictionary: either the list of record dicts of
a successful query or the `error` dict recorded for a failed one. -/
inductive QueryOutcome where
  | records (n : ℕ)
  | errorDict (msg : String)
deriving DecidableEq, Repr

/-- The eight query names, in the order `execute_analytical_queries` runs
them. -/
def queryNames : List String :=
  ["summary_stats", "monthly_trends", "location_analysis",
    "property_type_distribution", "price_correlations", "top_10_expensive",
    "bedroom_distribution", "price_brackets"]

/-- `execute_analytical_queries`: run every query inside its own
try/except; a success is stored as its records, a failure as the error
dict — the loop never aborts. -/
def execute_analytical_queries (runQuery : String → Except String ℕ) :
    List (String × QueryOutcome) :=
  queryNames.map (fun n =>
    (n, match runQuery n with
        | .ok rows => .records rows
        | .error e => .errorDict e))

/-- The section order of `generate_html_report` (it differs from the
execution order: price brackets are rendered before the bedroom
distribution). -/
def sectionOrder : List String :=
  ["summary_stats", "monthly_trends", "location_analysis",
    "property_type_distribution", "price_correlations", "top_10_expensive",
    "price_brackets", "bedroom_distribution"]

/-- Python `name in results and results[name]` followed by the dictionary
lookup. -/
def lookupEntry (results : List (String × QueryOutcome)) (n : String) :
    Option QueryOutcome :=
  (results.find? (fun p => p.1 == n)).map (·.2)

/-- Python truthiness of an entry: an empty record list is falsy, a
non-empty one is truthy, and the error dict — a non-empty dict — is truthy
too. -/
def truthyEntry : QueryOutcome → Bool
  | .records n => n != 0
  | .errorDict _ => true

/-- One section of `generate_html_report`: skipped when the entry is absent
or falsy; rendered from its records when they exist; but on an error dict
the section body indexes the dict as if it were record data
(`results[name][0]` raises KeyError, `for row in results[name]` yields the
string key and then `row[field]` raises TypeError) and the exception
escapes `generate_html_report`. -/
def renderSection (results : List (String × QueryOutcome)) (n : String) :
    Except String (Option String) :=
  match lookupEntry results n with
  | none => .ok none
  | some e =>
    if truthyEntry e then
      match e with
      | .records _ => .ok (some n)
      | .errorDict _ => .error ("indexing the error entry of " ++ n ++ " raised")
    else .ok none

/-- The section loop of `generate_html_report`, returning the names of the
rendered sections (the model of the assembled HTML). -/
def renderSections (results : List (String × QueryOutcome)) :
    List String → Except String (List String)
  | [] => .ok []
  | n :: ns =>
    match renderSection results n with
    | .error e => .error e
    | .ok none => renderSections results ns
    | .ok (some s) => (renderSections results ns).map (fun rest => s :: rest)

/-- `generate_html_report` over the whole section list. -/
def generate_html_report (results : List (String × QueryOutcome)) :
    Except String (List String) :=
  renderSections results sectionOrder

/-- `generate_report` (the HTTP entry point): execute the queries, generate
the HTML report and upload both artifacts (the uploads are external I/O and
modelled as succeeding); any exception is caught by the outer handler,
which answers 500, while the success path answers 200 with the rendered
report.  The result is the HTTP status together with the rendered section
names, when a report was produced. -/
def generate_report (runQuery : String → Except String ℕ) :
    ℕ × Option (List String) :=
  let results := execute_analytical_queries runQuery
  match generate_html_report results with
  | .ok secs => (200, some secs)
  | .error _ => (500, none)

end Analytics

namespace SrcMain

/-! ### `src/main.py`, the duplicate ETL entry point

Its import block (lines 1-6) binds exactly these module-level names; `io`
is not among them, yet line 45 evaluates `io.StringIO(content)`. -/

/-- The global names bound by the import statements of `src/main.py`. -/
def importedNames : List String :=
  ["functions_framework", "storage", "bigquery", "pd", "normalize_dataframe",
    "create_dimension_tables", "load_fact_table", "os"]

/-- Python global-name resolution: an unbound name raises `NameError`. -/
def nameLookup (n : String) : Except String Unit :=
  if importedNames.contains n then .ok ()
  else .error ("NameError: name " ++ n ++ " is not defined")

/-- Python `str.endswith` for the `.csv` test of `src/main.py` (this copy
does not lowercase the name first). -/
def endsWithCsv (fileName : String) : Bool :=
  listStartsWith fileName.toList.reverse ".csv".toList.reverse

/-- `process_csv` (src/main.py): skip non-CSV objects; otherwise download
the blob (external I/O, modelled as succeeding) and evaluate
`io.StringIO(content)` — whose name lookup precedes every transformation
and load step.  The `except` clause re-raises, so an error escapes the
function. -/
def process_csv (fileName : String) : Except String String :=
  if !endsWithCsv fileName then .ok "skipped non-CSV file"
  else
    match nameLookup "io" with
    | .error e => .error e
    | .ok _ => .ok "processed"

end SrcMain

/-! ### Concrete witness data -/

/-- Concrete all-rows-eliminated batch for the C2 witness: a single row
whose price is negative. -/
def dfNegW : List ETL.RawRow :=
  [{ list_date := some 0, location := some "A", property_type := some "B",
     price := some (-5), bedrooms := some 1, bathrooms := some 1,
     sqft := some 100 }]

/-- Concrete raw batch for the C3 and C7 witnesses. -/
def dfW : List ETL.RawRow :=
  [{ list_date := some 0, location := some "A", property_type := some "B",
     price := some 10, bedrooms := some 1, bathrooms := some 1,
     sqft := some 5 }]

/-- The row that `normalize_dataframe dfW 0` produces. -/
def nrW : ETL.NormRow :=
  { list_date := 0, location := "A", property_type := "B", price := 10,
    bedrooms := 1, bathrooms := 1, sqft := 5, price_per_sqft := 2,
    location_key := "A", property_type_key := "B", date_key := 19700101,
    created_at := 0, updated_at := 0, listing_status := "Active",
    lot_size := none }

/-- Concrete normalized batch for the C4, C6, C8 and C9 witnesses: two rows,
list dates 0 and 2, one comma location and one plain location. -/
def ndfW : List ETL.NormRow :=
  [{ list_date := 0, location := "Dubai Marina, Dubai",
     property_type := "Apartment", price := 800000, bedrooms := 2,
     bathrooms := 2, sqft := 1200, price_per_sqft := 600,
     location_key := "Dubai Marina, Dubai", property_type_key := "Apartment",
     date_key := 19700101, created_at := 0, updated_at := 0,
     listing_status := "Active", lot_size := none },
   { list_date := 2, location := "Sharjah", property_type := "Penthouse Suite",
     price := 810000, bedrooms := 3, bathrooms := 2, sqft := 1500,
     price_per_sqft := 540, location_key := "Sharjah",
     property_type_key := "Penthouse Suite", date_key := 19700103,
     created_at := 0, updated_at := 0, listing_status := "Active",
     lot_size := none }]

/-- The `dim_location` row that `create_dimension_tables ndfW 0` assigns to
the comma-free location "Sharjah". -/
def locRowW : ETL.LocationRow :=
  { location_id := 2, location := "Sharjah", city := "Sharjah", state := none,
    zip_code := none, region := "UAE", created_at := 0 }

/-- The first fact row that `load_fact_table` produces for `ndfW` with the
dimension tables of the same run. -/
def factW : ETL.FactRow :=
  { location_id := some 1, property_type_id := some 1,
    date_id := some 19700101, list_date := 0, listing_status := "Active",
    price := 800000, bedrooms := 2, bathrooms := 2, sqft := 1200,
    lot_size := none, price_per_sqft := 600, created_at := 0, updated_at := 0,
    listing_id := 1 }

/-- Query oracle for the C5 evaluation: exactly the price-correlations query
raises, every other query returns one record. -/
def oneFailureRun : String → Except String ℕ := fun n =>
  if n == "price_correlations" then .error "correlation query raised"
  else .ok 1

/-! ## Supporting lemmas -/

theorem mem_dedupFirst {α : Type} [DecidableEq α] {a : α} :
    ∀ {l : List α}, a ∈ dedupFirst l ↔ a ∈ l
  | [] => by simp [dedupFirst]
  | x :: xs => by
    simp only [dedupFirst, List.mem_cons, List.mem_filter,
      mem_dedupFirst (l := xs), decide_eq_true_eq]
    constructor
    · rintro (rfl | ⟨h, _⟩)
      · exact Or.inl rfl
      · exact Or.inr h
    · rintro (rfl | h)
      · exact Or.inl rfl
      · by_cases hax : a = x
        · exact Or.inl hax
        · exact Or.inr ⟨h, hax⟩

theorem exists_numberFrom {α β : Type} (f : ℕ → α → β) {a : α} :
    ∀ (k : ℕ) {l : List α}, a ∈ l → ∃ b ∈ numberFrom f k l, ∃ i, b = f i a := by
  intro k l
  induction l generalizing k with
  | nil => intro h; cases h
  | cons x xs ih =>
    intro h
    rcases List.mem_cons.mp h with rfl | hmem
    · exact ⟨f k a, List.mem_cons_self _ _, k, rfl⟩
    · obtain ⟨b, hb, i, hbi⟩ := ih (k + 1) hmem
      exact ⟨b, List.mem_cons_of_mem _ hb, i, hbi⟩

theorem mem_numberFrom {α β : Type} {f : ℕ → α → β} {b : β} :
    ∀ {k : ℕ} {l : List α}, b ∈ numberFrom f k l → ∃ i a, a ∈ l ∧ b = f i a := by
  intro k l
  induction l generalizing k with
  | nil => intro h; cases h
  | cons x xs ih =>
    intro h
    rcases List.mem_cons.mp h with rfl | hmem
    · exact ⟨k, x, List.mem_cons_self _ _, rfl⟩
    · obtain ⟨i, a, ha, hba⟩ := ih hmem
      exact ⟨i, a, List.mem_cons_of_mem _ ha, hba⟩

theorem numberFrom_map_index {α β : Type} (f : ℕ → α → β) (g : β → ℕ)
    (hg : ∀ i a, g (f i a) = i) :
    ∀ (k : ℕ) (l : List α), (numberFrom f k l).map g = List.range' k l.length := by
  intro k l
  induction l generalizing k with
  | nil => rfl
  | cons x xs ih =>
    simp only [numberFrom, List.map_cons, hg, List.length_cons, List.range'_succ]
    exact congrArg _ (ih (k + 1))

theorem numberFrom_map_val {α β : Type} (f : ℕ → α → β) (g : β → α)
    (hg : ∀ i a, g (f i a) = a) :
    ∀ (k : ℕ) (l : List α), (numberFrom f k l).map g = l := by
  intro k l
  induction l generalizing k with
  | nil => rfl
  | cons x xs ih =>
    simp only [numberFrom, List.map_cons, hg]
    exact congrArg _ (ih (k + 1))

theorem listMin_isSome_of_mem {l : List ℤ} {x : ℤ} (hx : x ∈ l) :
    ∃ m, listMin l = some m := by
  cases l with
  | nil => cases hx
  | cons y ys => exact ⟨_, rfl⟩

theorem listMax_isSome_of_mem {l : List ℤ} {x : ℤ} (hx : x ∈ l) :
    ∃ m, listMax l = some m := by
  cases l with
  | nil => cases hx
  | cons y ys => exact ⟨_, rfl⟩

theorem listMin_le : ∀ {l : List ℤ} {m : ℤ}, listMin l = some m → ∀ x ∈ l, m ≤ x := by
  intro l
  induction l with
  | nil => intro m h; cases h
  | cons y ys ih =>
    intro m h x hx
    simp only [listMin] at h
    cases hys : listMin ys with
    | none =>
      simp only [hys] at h
      cases h
      rcases List.mem_cons.mp hx with rfl | hmem
      · exact le_refl x
      · exfalso
        obtain ⟨m', hm'⟩ := listMin_isSome_of_mem hmem
        rw [hm'] at hys
        cases hys
    | some m' =>
      simp only [hys] at h
      cases h
      rcases List.mem_cons.mp hx with rfl | hmem
      · exact min_le_left _ _
      · exact le_trans (min_le_right _ _) (ih hys x hmem)

theorem le_listMax : ∀ {l : List ℤ} {m : ℤ}, listMax l = some m → ∀ x ∈ l, x ≤ m := by
  intro l
  induction l with
  | nil => intro m h; cases h
  | cons y ys ih =>
    intro m h x hx
    simp only [listMax] at h
    cases hys : listMax ys with
    | none =>
      simp only [hys] at h
      cases h
      rcases List.mem_cons.mp hx with rfl | hmem
      · exact le_refl x
      · exfalso
        obtain ⟨m', hm'⟩ := listMax_isSome_of_mem hmem
        rw [hm'] at hys
        cases hys
    | some m' =>
      simp only [hys] at h
      cases h
      rcases List.mem_cons.mp hx with rfl | hmem
      · exact le_max_left _ _
      · exact le_trans (ih hys x hmem) (le_max_right _ _)

theorem listMin_mem : ∀ {l : List ℤ} {m : ℤ}, listMin l = some m → m ∈ l := by
  intro l
  induction l with
  | nil => intro m h; cases h
  | cons y ys ih =>
    intro m h
    simp only [listMin] at h
    cases hys : listMin ys with
    | none =>
      simp only [hys] at h
      cases h
      exact List.mem_cons_self _ _
    | some m' =>
      simp only [hys] at h
      cases h
      rcases le_total y m' with hle | hle
      · show y ⊓ m' ∈ y :: ys
        rw [min_eq_left hle]
        exact List.mem_cons_self _ _
      · show y ⊓ m' ∈ y :: ys
        rw [min_eq_right hle]
        exact List.mem_cons_of_mem _ (ih hys)

theorem mem_dateSpine : ∀ (n : ℕ) (a d : ℤ), a ≤ d → d < a + n → d ∈ dateSpine a n := by
  intro n
  induction n with
  | zero => intro a d h1 h2; exfalso; omega
  | succ k ih =>
    intro a d h1 h2
    by_cases hda : d = a
    · subst hda; exact List.mem_cons_self _ _
    · exact List.mem_cons_of_mem _ (ih (a + 1) d (by omega) (by omega))

theorem dateSpine_filter_length : ∀ (n : ℕ) (a d : ℤ),
    ((dateSpine a n).filter (fun x => x == d)).length =
      if a ≤ d ∧ d < a + n then 1 else 0 := by
  intro n
  induction n with
  | zero =>
    intro a d
    simp only [dateSpine, List.filter_nil, List.length_nil]
    split
    · omega
    · rfl
  | succ k ih =>
    intro a d
    simp only [dateSpine, List.filter_cons]
    by_cases hda : a = d
    · subst hda
      simp only [beq_self_eq_true, if_pos, List.length_cons, ih (a + 1) a]
      have h1 : ¬(a + 1 ≤ a ∧ a < a + 1 + k) := by omega
      rw [if_neg h1, if_pos (by push_cast; omega)]
    · have hbeq : (a == d) = false := beq_eq_false_iff_ne.mpr hda
      simp only [hbeq, if_neg Bool.false_ne_true, ih (a + 1) d]
      push_cast
      split <;> split <;> omega

theorem leftJoin_fst_mem {α β γ : Type} {keyMatch : α → β → Bool} {getId : β → γ}
    {l : List α} {dim : List β} {x : α × Option γ}
    (hx : x ∈ ETL.leftJoin keyMatch getId l dim) : x.1 ∈ l := by
  obtain ⟨a, ha, hxin⟩ := List.mem_flatMap.mp hx
  by_cases hempty : (dim.filter (keyMatch a)).isEmpty
  · rw [if_pos hempty] at hxin
    rcases List.mem_cons.mp hxin with rfl | h
    · exact ha
    · cases h
  · rw [if_neg hempty] at hxin
    obtain ⟨d, _, rfl⟩ := List.mem_map.mp hxin
    exact ha

theorem getD_nonpos {s : List ℚ} (hs : ∀ x ∈ s, x ≤ 0) (i : ℕ) : s.getD i 0 ≤ 0 := by
  rw [List.getD_eq_getElem?_getD]
  cases h : s[i]? with
  | none => simp
  | some v => simpa using hs v (List.getElem?_mem h)

theorem ratFloor_eq_intFloor (x : ℚ) : Rat.floor x = ⌊x⌋ := by
  rw [Rat.floor_def', Rat.floor_def]

theorem quantileInterp_nonpos {q : ℚ} (hq0 : 0 ≤ q) {s : List ℚ}
    (hn : 1 ≤ s.length) (hs : ∀ x ∈ s, x ≤ 0) : quantileInterp q s ≤ 0 := by
  have hpos : (0 : ℚ) ≤ qpos q s.length := by
    apply mul_nonneg hq0
    have h1 : (1 : ℚ) ≤ (s.length : ℚ) := by exact_mod_cast hn
    linarith
  have hfloor0 : 0 ≤ Int.floor (qpos q s.length) := Int.floor_nonneg.mpr hpos
  have hcast : ((qidx q s.length : ℕ) : ℚ) = ((Int.floor (qpos q s.length) : ℤ) : ℚ) := by
    unfold qidx
    rw [ratFloor_eq_intFloor]
    exact_mod_cast congrArg (fun z => ((z : ℤ) : ℚ)) (Int.toNat_of_nonneg hfloor0)
  have hfr0 : 0 ≤ qpos q s.length - ((qidx q s.length : ℕ) : ℚ) := by
    rw [hcast]
    linarith [Int.floor_le (qpos q s.length)]
  have hfr1 : qpos q s.length - ((qidx q s.length : ℕ) : ℚ) < 1 := by
    rw [hcast]
    have := Int.lt_floor_add_one (qpos q s.length)
    push_cast at this
    linarith
  have hlo := getD_nonpos hs (qidx q s.length)
  have hhi := getD_nonpos hs (qidx q s.length + 1)
  unfold quantileInterp
  nlinarith [hfr0, hfr1, hlo, hhi]

theorem quantileQ_nonpos {q : ℚ} (hq0 : 0 ≤ q) {xs : List ℚ}
    (h : ∀ x ∈ xs, x ≤ 0) : quantileQ q xs ≤ 0 := by
  unfold quantileQ
  have hsm : ∀ x ∈ List.insertionSort (· ≤ ·) xs, x ≤ 0 := fun x hx =>
    h x ((List.perm_insertionSort (· ≤ ·) xs).mem_iff.mp hx)
  by_cases hemp : (List.insertionSort (· ≤ ·) xs).isEmpty
  · simp [hemp]
  · rw [if_neg hemp]
    apply quantileInterp_nonpos hq0 _ hsm
    cases hl : List.insertionSort (· ≤ ·) xs with
    | nil => rw [hl] at hemp; simp at hemp
    | cons a t => simp [hl]

theorem optGt_false_iff {x : Option ℚ} {c : ℚ} :
    optGt x c = false ↔ ∀ p, x = some p → p ≤ c := by
  cases x <;> simp [optGt]

theorem optGt_true_iff {x : Option ℚ} {c : ℚ} :
    optGt x c = true ↔ ∃ v, x = some v ∧ c < v := by
  cases x <;> simp [optGt]

theorem optGe_true_iff {x : Option ℚ} {c : ℚ} :
    optGe x c = true ↔ ∃ v, x = some v ∧ c ≤ v := by
  cases x <;> simp [optGe]

theorem medianOpt_nonpos {l : List (Option ℚ)} (h : ∀ x ∈ l, optGt x 0 = false) :
    optGt (medianOpt l) 0 = false := by
  unfold medianOpt
  by_cases hemp : (l.filterMap id).isEmpty
  · simp [hemp, optGt]
  · rw [if_neg hemp]
    rw [optGt_false_iff]
    intro p hp
    cases hp
    apply quantileQ_nonpos (by norm_num)
    intro v hv
    obtain ⟨x, hx, hxv⟩ := List.mem_filterMap.mp hv
    cases x with
    | none => cases hxv
    | some w =>
      cases hxv
      exact (optGt_false_iff.mp (h _ hx)) v rfl

theorem leftJoin_id_isSome {α β γ : Type} {keyMatch : α → β → Bool} {getId : β → γ}
    {l : List α} {dim : List β} {x : α × Option γ}
    (hx : x ∈ ETL.leftJoin keyMatch getId l dim)
    (hmatch : ∀ a ∈ l, ∃ d ∈ dim, keyMatch a d = true) : x.2.isSome = true := by
  obtain ⟨a, ha, hxin⟩ := List.mem_flatMap.mp hx
  by_cases hempty : (dim.filter (keyMatch a)).isEmpty
  · exfalso
    obtain ⟨d, hd, hkm⟩ := hmatch a ha
    have hdm : d ∈ dim.filter (keyMatch a) := List.mem_filter.mpr ⟨hd, hkm⟩
    rw [List.isEmpty_iff] at hempty
    rw [hempty] at hdm
    cases hdm
  · rw [if_neg hempty] at hxin
    obtain ⟨d, _, rfl⟩ := List.mem_map.mp hxin
    rfl

theorem standardizeText_price {l : List ETL.RawRow} {r : ETL.RawRow}
    (hr : r ∈ ETL.standardizeText l) : ∃ r1 ∈ l, r.price = r1.price := by
  unfold ETL.standardizeText at hr
  obtain ⟨r1, hr1, rfl⟩ := List.mem_map.mp hr
  exact ⟨r1, hr1, rfl⟩

theorem imputeMissing_price_nonpos {l : List ETL.RawRow}
    (h : ∀ r ∈ l, optGt r.price 0 = false) :
    ∀ r ∈ ETL.imputeMissing l, optGt r.price 0 = false := by
  intro r hr
  simp only [ETL.imputeMissing] at hr
  obtain ⟨r1, hr1, rfl⟩ := List.mem_map.mp hr
  show optGt (r1.price <|> medianOpt (l.map (fun x => x.price))) 0 = false
  cases hp : r1.price with
  | some p =>
    simp only [Option.some_orElse]
    rw [← hp]
    exact h r1 hr1
  | none =>
    simp only [Option.none_orElse]
    apply medianOpt_nonpos
    intro x hx
    obtain ⟨r3, hr3, rfl⟩ := List.mem_map.mp hx
    exact h r3 hr3

theorem preOutlier_price_nonpos {df : List ETL.RawRow}
    (hneg : ∀ r ∈ df, optGt r.price 0 = false) :
    ∀ r ∈ ETL.preOutlier df, optGt r.price 0 = false := by
  intro r hr
  unfold ETL.preOutlier ETL.dropInvalidCritical at hr
  obtain ⟨hrt, _⟩ := List.mem_filter.mp hr
  obtain ⟨r1, hr1, hpr⟩ := standardizeText_price hrt
  rw [hpr]
  refine imputeMissing_price_nonpos ?_ r1 hr1
  intro r2 hr2
  exact hneg r2 (List.mem_filter.mp hr2).1

theorem sanityFiltered_eq_nil_of_nonpos {df : List ETL.RawRow}
    (hneg : ∀ r ∈ df, optGt r.price 0 = false) :
    ETL.sanityFiltered df = [] := by
  have hfirst : (ETL.removeOutliers df).filter (fun r => optGt r.price 0) = [] := by
    rw [List.filter_eq_nil_iff]
    intro r hrem hgt
    obtain ⟨hrpre, _⟩ := List.mem_filter.mp hrem
    rw [preOutlier_price_nonpos hneg r hrpre] at hgt
    cases hgt
  unfold ETL.sanityFiltered
  rw [hfirst]
  rfl

theorem mem_norm_decomp {df : List ETL.RawRow} {now : ℤ} {out : List ETL.NormRow}
    {r : ETL.NormRow} (hok : ETL.normalize_dataframe df now = .ok out)
    (hr : r ∈ out) : ∃ r0 ∈ ETL.sanityFiltered df, ETL.finishRow now r0 = some r := by
  simp only [ETL.normalize_dataframe] at hok
  split at hok
  · cases hok
  · cases hok
    exact List.mem_filterMap.mp hr

theorem finishRow_fields {now : ℤ} {r0 : ETL.RawRow} {r : ETL.NormRow}
    (h : ETL.finishRow now r0 = some r) :
    r0.price = some r.price ∧ r0.sqft = some r.sqft ∧
    r0.bedrooms = some r.bedrooms ∧ r0.bathrooms = some r.bathrooms := by
  unfold ETL.finishRow at h
  split at h
  · cases h
    rename_i hld hloc hpt hp hbd hba hsq
    exact ⟨hp, hsq, hbd, hba⟩
  · cases h

theorem mem_sanityFiltered {df : List ETL.RawRow} {r0 : ETL.RawRow}
    (h : r0 ∈ ETL.sanityFiltered df) :
    r0 ∈ ETL.removeOutliers df ∧ optGt r0.price 0 = true ∧ optGt r0.sqft 0 = true ∧
    optGe r0.bedrooms 0 = true ∧ optGt r0.bathrooms 0 = true := by
  unfold ETL.sanityFiltered at h
  obtain ⟨h3, hba⟩ := List.mem_filter.mp h
  obtain ⟨h2, hbd⟩ := List.mem_filter.mp h3
  obtain ⟨h1, hsq⟩ := List.mem_filter.mp h2
  obtain ⟨h0, hp⟩ := List.mem_filter.mp h1
  exact ⟨h0, hp, hsq, hbd, hba⟩

theorem dims_location_eq (ndf : List ETL.NormRow) (now : ℤ) :
    (ETL.create_dimension_tables ndf now).location =
      numberFrom
        (ETL.mkLocationRow ((dedupFirst (ndf.map (·.location))).any hasComma) now) 1
        (dedupFirst (ndf.map (·.location))) := rfl

theorem dims_ptype_eq (ndf : List ETL.NormRow) (now : ℤ) :
    (ETL.create_dimension_tables ndf now).property_type =
      numberFrom (ETL.mkPropertyTypeRow now) 1
        (dedupFirst (ndf.map (·.property_type))) := rfl

theorem dims_date_eq {ndf : List ETL.NormRow} {now a b : ℤ}
    (ha : listMin (ndf.map (·.list_date)) = some a)
    (hb : listMax (ndf.map (·.list_date)) = some b) :
    (ETL.create_dimension_tables ndf now).date =
      (dateSpine a ((b - a).toNat + 1)).map ETL.mkDateRow := by
  simp only [ETL.create_dimension_tables, ha, hb]

theorem splitFirstComma_of_not_hasComma {l : String} (h : hasComma l = false) :
    splitFirstComma l = (l, none) := by
  unfold hasComma at h
  unfold splitFirstComma
  cases hb : breakAtComma l.toList with
  | none => rfl
  | some p =>
    rw [hb] at h
    cases h

theorem splitFirstComma_of_hasComma {l : String} (h : hasComma l = true) :
    ∃ a b, splitFirstComma l = (a, some b) := by
  unfold hasComma at h
  cases hb : breakAtComma l.toList with
  | none =>
    rw [hb] at h
    cases h
  | some p =>
    obtain ⟨pa, pb⟩ := p
    exact ⟨String.mk pa, String.mk pb, by unfold splitFirstComma; rw [hb]⟩

theorem locationCityState_comma {l : String} (hc : hasComma l = true) :
    ETL.locationCityState true l =
      (pyStrip (splitFirstComma l).1, ((splitFirstComma l).2).map pyStrip) := by
  obtain ⟨a, b, hs⟩ := splitFirstComma_of_hasComma hc
  unfold ETL.locationCityState
  rw [hs]
  rfl

theorem locationCityState_noComma_true {l : String} (hc : hasComma l = false) :
    ETL.locationCityState true l = (pyStrip l, none) := by
  unfold ETL.locationCityState
  rw [splitFirstComma_of_not_hasComma hc]
  rfl

theorem dims_location_contains (ndf : List ETL.NormRow) (now : ℤ) :
    ∀ r ∈ ndf, ∃ d ∈ (ETL.create_dimension_tables ndf now).location,
      d.location = r.location := by
  intro r hr
  rw [dims_location_eq]
  have hmem : r.location ∈ dedupFirst (ndf.map (·.location)) :=
    mem_dedupFirst.mpr (List.mem_map_of_mem _ hr)
  obtain ⟨b, hb, i, rfl⟩ := exists_numberFrom _ 1 hmem
  exact ⟨_, hb, rfl⟩

theorem dims_ptype_contains (ndf : List ETL.NormRow) (now : ℤ) :
    ∀ r ∈ ndf, ∃ d ∈ (ETL.create_dimension_tables ndf now).property_type,
      d.property_type = r.property_type := by
  intro r hr
  rw [dims_ptype_eq]
  have hmem : r.property_type ∈ dedupFirst (ndf.map (·.property_type)) :=
    mem_dedupFirst.mpr (List.mem_map_of_mem _ hr)
  obtain ⟨b, hb, i, rfl⟩ := exists_numberFrom _ 1 hmem
  exact ⟨_, hb, rfl⟩

theorem dims_date_contains (ndf : List ETL.NormRow) (now : ℤ) :
    ∀ r ∈ ndf, ∃ d ∈ (ETL.create_dimension_tables ndf now).date,
      d.date_id = yyyymmdd r.list_date := by
  intro r hr
  have hld : r.list_date ∈ ndf.map (·.list_date) := List.mem_map_of_mem _ hr
  obtain ⟨a, ha⟩ := listMin_isSome_of_mem hld
  obtain ⟨b, hb⟩ := listMax_isSome_of_mem hld
  have h1 : a ≤ r.list_date := listMin_le ha _ hld
  have h2 : r.list_date ≤ b := le_listMax hb _ hld
  rw [dims_date_eq ha hb]
  have htn : ((b - a).toNat : ℤ) = b - a := Int.toNat_of_nonneg (by omega)
  have hmem : r.list_date ∈ dateSpine a ((b - a).toNat + 1) := by
    apply mem_dateSpine _ _ _ h1
    push_cast
    omega
  exact ⟨ETL.mkDateRow r.list_date, List.mem_map_of_mem _ hmem, rfl⟩

theorem listStartsWith_exists {p l : List Char}
    (h : listStartsWith l p = true) : ∃ t, l = p ++ t := by
  induction p generalizing l with
  | nil => exact ⟨l, rfl⟩
  | cons b bs ih =>
    cases l with
    | nil => cases h
    | cons a as =>
      simp only [listStartsWith, Bool.and_eq_true, beq_iff_eq] at h
      obtain ⟨t, ht⟩ := ih h.2
      exact ⟨t, by rw [List.cons_append, h.1, ht]⟩

theorem listStartsWith_append (p t : List Char) :
    listStartsWith (p ++ t) p = true := by
  induction p with
  | nil =>
    cases t with
    | nil => rfl
    | cons c cs => rfl
  | cons b bs ih =>
    simp only [List.cons_append, listStartsWith, Bool.and_eq_true, beq_iff_eq]
    exact ⟨trivial, ih⟩

theorem listContainsSub_exists {p l : List Char}
    (h : listContainsSub l p = true) : ∃ u v, l = u ++ (p ++ v) := by
  induction l with
  | nil =>
    simp only [listContainsSub, List.isEmpty_iff] at h
    exact ⟨[], [], by rw [h]; rfl⟩
  | cons c t ih =>
    simp only [listContainsSub, Bool.or_eq_true] at h
    rcases h with h | h
    · obtain ⟨v, hv⟩ := listStartsWith_exists h
      exact ⟨[], v, by rw [hv]; rfl⟩
    · obtain ⟨u, v, huv⟩ := ih h
      exact ⟨c :: u, v, by rw [List.cons_append, huv]⟩

theorem listContainsSub_of_append (u p v : List Char) :
    listContainsSub (u ++ (p ++ v)) p = true := by
  induction u with
  | nil =>
    cases hp : p ++ v with
    | nil =>
      rcases List.append_eq_nil.mp hp with ⟨rfl, rfl⟩
      rfl
    | cons c cs =>
      simp only [List.nil_append, hp, listContainsSub, Bool.or_eq_true]
      exact Or.inl (hp ▸ listStartsWith_append p v)
  | cons a as ih =>
    simp only [List.cons_append, listContainsSub, Bool.or_eq_true]
    exact Or.inr ih

theorem listContainsSub_trans_suffix {l pre suf : List Char}
    (h : listContainsSub l (pre ++ suf) = true) :
    listContainsSub l suf = true := by
  obtain ⟨u, v, huv⟩ := listContainsSub_exists h
  rw [huv, List.append_assoc pre suf v, ← List.append_assoc u pre (suf ++ v)]
  exact listContainsSub_of_append (u ++ pre) suf v

/-! ## Claim theorems -/

/-- C1: the derived category IS computed by a case-insensitive substring
match in the priority order apartment/flat/studio, then villa/house, then
townhouse, then penthouse, first match wins — but precisely because the
villa/house rule is tested before the penthouse rule and "house" is a
substring of "penthouse", the property type "Penthouse Suite" categorizes
to "Residential-House", not to "Residential-Luxury" as the claim states
(the penthouse branch of the source is unreachable).  "Cozy Flat"
categorizes to "Residential-Apartment" as claimed.  This theorem evaluates
the embedded source function at the failing input. -/
theorem c1_penthouse_suite_categorizes_to_house :
    ETL.categorize_property "Penthouse Suite" = "Residential-House" ∧
    ETL.categorize_property "Cozy Flat" = "Residential-Apartment" :=
  ⟨rfl, rfl⟩

/-- The villa/house rule shadows both later rules of `categorize_property`
for every input: any string containing "townhouse" or "penthouse" contains
"house", so the "Residential-Townhouse" and "Residential-Luxury" branches
are unreachable dead code. -/
theorem categorize_property_house_rule_shadows (s : String) :
    ETL.categorize_property s ≠ "Residential-Luxury" ∧
    ETL.categorize_property s ≠ "Residential-Townhouse" := by
  simp only [ETL.categorize_property]
  split_ifs with h1 h2 h3 h4
  · exact ⟨by decide, by decide⟩
  · exact ⟨by decide, by decide⟩
  · exfalso
    apply h2
    have hsplit : ("townhouse".toList : List Char) = "town".toList ++ "house".toList := by
      decide
    rw [hsplit] at h3
    rw [Bool.or_eq_true]
    exact Or.inr (listContainsSub_trans_suffix h3)
  · exfalso
    apply h2
    have hsplit : ("penthouse".toList : List Char) = "pent".toList ++ "house".toList := by
      decide
    rw [hsplit] at h4
    rw [Bool.or_eq_true]
    exact Or.inr (listContainsSub_trans_suffix h4)
  · exact ⟨by decide, by decide⟩

/-- C2: when every row of the raw batch has a non-positive (or missing)
price, normalization fails with the all-rows-eliminated error — the spec's
DataError — and the whole pipeline run fails with that same error, so no
dimension tables and no fact rows are produced for the batch. -/
theorem c2_all_rows_eliminated_batch_rejected (df : List ETL.RawRow) (now : ℤ)
    (hneg : ∀ r ∈ df, optGt r.price 0 = false) :
    ETL.normalize_dataframe df now =
      .error "All rows were filtered out during transformation!" ∧
    ETL.run_etl_pipeline df now =
      .error "All rows were filtered out during transformation!" := by
  have hsan : ETL.sanityFiltered df = [] := sanityFiltered_eq_nil_of_nonpos hneg
  have hnorm : ETL.normalize_dataframe df now =
      .error "All rows were filtered out during transformation!" := by
    simp only [ETL.normalize_dataframe, hsan]
    rfl
  refine ⟨hnorm, ?_⟩
  simp only [ETL.run_etl_pipeline, hnorm]

/-- Witness for C2 at the concrete batch `dfNegW`. -/
theorem c2_witness :
    (∀ r ∈ dfNegW, optGt r.price 0 = false) ∧
    ETL.normalize_dataframe dfNegW 0 =
      .error "All rows were filtered out during transformation!" :=
  ⟨by decide, (c2_all_rows_eliminated_batch_rejected dfNegW 0 (by decide)).1⟩

/-- C3: every row of a successfully normalized batch has its price inside
the Tukey fence `[Q1 - 1.5*IQR, Q3 + 1.5*IQR]`, where the quartiles are
computed over the batch's prices immediately before outlier removal; the
later sanity filters only remove further rows. -/
theorem c3_outlier_fence_invariant (df : List ETL.RawRow) (now : ℤ)
    (out : List ETL.NormRow) (hok : ETL.normalize_dataframe df now = .ok out)
    (r : ETL.NormRow) (hr : r ∈ out) :
    ETL.lowerBound df ≤ r.price ∧ r.price ≤ ETL.upperBound df := by
  obtain ⟨r0, hr0, hfin⟩ := mem_norm_decomp hok hr
  obtain ⟨hro, _, _, _, _⟩ := mem_sanityFiltered hr0
  obtain ⟨hp, _, _, _⟩ := finishRow_fields hfin
  unfold ETL.removeOutliers at hro
  obtain ⟨_, hmask⟩ := List.mem_filter.mp hro
  rw [Bool.not_eq_true'] at hmask
  unfold ETL.outlierMask at hmask
  rw [hp] at hmask
  simp only [Bool.or_eq_false_iff, decide_eq_false_iff_not, not_lt] at hmask
  exact ⟨hmask.1, hmask.2⟩

/-- Witness for C3 at the concrete batch `dfW`. -/
theorem c3_witness :
    ETL.lowerBound dfW ≤ nrW.price ∧ nrW.price ≤ ETL.upperBound dfW :=
  c3_outlier_fence_invariant dfW 0 [nrW] (by with_unfolding_all rfl) nrW
    (List.mem_singleton.mpr rfl)

/-- C7: every row of a successfully normalized batch satisfies
`price > 0`, `sqft > 0`, `bedrooms >= 0` and `bathrooms > 0` — the sanity
filters run before the derived `price_per_sqft` field is computed. -/
theorem c7_sanity_filter_invariant (df : List ETL.RawRow) (now : ℤ)
    (out : List ETL.NormRow) (hok : ETL.normalize_dataframe df now = .ok out)
    (r : ETL.NormRow) (hr : r ∈ out) :
    0 < r.price ∧ 0 < r.sqft ∧ 0 ≤ r.bedrooms ∧ 0 < r.bathrooms := by
  obtain ⟨r0, hr0, hfin⟩ := mem_norm_decomp hok hr
  obtain ⟨_, hp, hsq, hbd, hba⟩ := mem_sanityFiltered hr0
  obtain ⟨hp', hsq', hbd', hba'⟩ := finishRow_fields hfin
  rw [hp'] at hp
  rw [hsq'] at hsq
  rw [hbd'] at hbd
  rw [hba'] at hba
  simp only [optGt, optGe, decide_eq_true_eq] at hp hsq hbd hba
  exact ⟨hp, hsq, hbd, hba⟩

/-- Witness for C7 at the concrete batch `dfW`. -/
theorem c7_witness :
    0 < nrW.price ∧ 0 < nrW.sqft ∧ 0 ≤ nrW.bedrooms ∧ 0 < nrW.bathrooms :=
  c7_sanity_filter_invariant dfW 0 [nrW] (by with_unfolding_all rfl) nrW
    (List.mem_singleton.mpr rfl)

/-- C4: for a normalized batch with at least one row (witnessed by its
list-date column having a minimum `a` and maximum `b`), the date dimension
contains exactly one row per calendar day `d` with `a ≤ d ≤ b` and no row
outside that range — a dense, contiguous spine — and every date-dimension
row's `date_id` is the YYYYMMDD integer encoding of its day. -/
theorem c4_date_spine_complete (ndf : List ETL.NormRow) (now a b : ℤ)
    (ha : listMin (ndf.map (·.list_date)) = some a)
    (hb : listMax (ndf.map (·.list_date)) = some b) :
    (∀ d : ℤ,
      ((ETL.create_dimension_tables ndf now).date.filter
          (fun row => row.full_date == d)).length =
        if a ≤ d ∧ d ≤ b then 1 else 0) ∧
    ∀ row ∈ (ETL.create_dimension_tables ndf now).date,
      row.date_id = yyyymmdd row.full_date := by
  have hab : a ≤ b := le_listMax hb a (listMin_mem ha)
  rw [dims_date_eq ha hb]
  constructor
  · intro d
    rw [List.filter_map, List.length_map]
    have hcomp : ((fun row => row.full_date == d) ∘ ETL.mkDateRow) =
        (fun x => x == d) := by
      funext x
      rfl
    rw [hcomp, dateSpine_filter_length]
    have htn : ((b - a).toNat : ℤ) = b - a := Int.toNat_of_nonneg (by omega)
    have hn1 : ((((b - a).toNat + 1 : ℕ)) : ℤ) = b - a + 1 := by push_cast; omega
    rw [hn1]
    split <;> split <;> omega
  · intro row hrow
    obtain ⟨x, _, rfl⟩ := List.mem_map.mp hrow
    rfl

/-- Witness for C4 at the concrete batch `ndfW` (dates 0 and 2), checked at
the middle day 1, a day with no listing. -/
theorem c4_witness :
    ((ETL.create_dimension_tables ndfW 0).date.filter
        (fun row => row.full_date == (1 : ℤ))).length =
      if (0 : ℤ) ≤ 1 ∧ (1 : ℤ) ≤ 2 then 1 else 0 :=
  (c4_date_spine_complete ndfW 0 0 2 rfl rfl).1 1

/-- C6: the Dimension Builder is deterministic — two runs on the same
normalized batch (and the same processing timestamp) produce equal
dimension tables — and the location and property-type surrogate ids are the
dense sequence 1..k in order of first appearance, with the natural-key
column equal to the first-appearance deduplication of the input column. -/
theorem c6_dimension_rebuild_idempotent (ndf : List ETL.NormRow) (now : ℤ) :
    ETL.create_dimension_tables ndf now = ETL.create_dimension_tables ndf now ∧
    (ETL.create_dimension_tables ndf now).location.map (·.location_id) =
      List.range' 1 (dedupFirst (ndf.map (·.location))).length ∧
    (ETL.create_dimension_tables ndf now).location.map (·.location) =
      dedupFirst (ndf.map (·.location)) ∧
    (ETL.create_dimension_tables ndf now).property_type.map (·.property_type_id) =
      List.range' 1 (dedupFirst (ndf.map (·.property_type))).length ∧
    (ETL.create_dimension_tables ndf now).property_type.map (·.property_type) =
      dedupFirst (ndf.map (·.property_type)) := by
  refine ⟨rfl, ?_, ?_, ?_, ?_⟩
  · rw [dims_location_eq]
    exact numberFrom_map_index _ _ (fun i a => rfl) 1 _
  · rw [dims_location_eq]
    exact numberFrom_map_val _ _ (fun i a => rfl) 1 _
  · rw [dims_ptype_eq]
    exact numberFrom_map_index _ _ (fun i a => rfl) 1 _
  · rw [dims_ptype_eq]
    exact numberFrom_map_val _ _ (fun i a => rfl) 1 _

/-- C8: for every row of the location dimension built from a normalized
batch (whose location strings are strip-invariant, as normalization
guarantees): if the location contains a comma, the city is the trimmed part
before the first comma and the state the trimmed part after it; otherwise
the city is the full location string and the state is null — whether or not
any other location of the batch contains a comma. -/
theorem c8_location_split (ndf : List ETL.NormRow) (now : ℤ)
    (hstrip : ∀ r ∈ ndf, pyStrip r.location = r.location) :
    ∀ row ∈ (ETL.create_dimension_tables ndf now).location,
      (hasComma row.location = true →
        row.city = pyStrip (splitFirstComma row.location).1 ∧
        row.state = ((splitFirstComma row.location).2).map pyStrip) ∧
      (hasComma row.location = false →
        row.city = row.location ∧ row.state = none) := by
  intro row hrow
  rw [dims_location_eq] at hrow
  obtain ⟨i, l, hl, rfl⟩ := mem_numberFrom hrow
  have hlin : l ∈ ndf.map (·.location) := mem_dedupFirst.mp hl
  obtain ⟨r, hr, hrl⟩ := List.mem_map.mp hlin
  have hstripl : pyStrip l = l := by
    rw [← hrl]
    exact hstrip r hr
  constructor
  · intro hc
    have hat : (dedupFirst (ndf.map (·.location))).any hasComma = true :=
      List.any_eq_true.mpr ⟨l, hl, hc⟩
    have hkey : ETL.locationCityState
        ((dedupFirst (ndf.map (·.location))).any hasComma) l =
        (pyStrip (splitFirstComma l).1, ((splitFirstComma l).2).map pyStrip) := by
      rw [hat]
      exact locationCityState_comma hc
    constructor
    · show (ETL.locationCityState _ l).1 = _
      rw [hkey]
      rfl
    · show (ETL.locationCityState _ l).2 = _
      rw [hkey]
      rfl
  · intro hc
    by_cases hat : (dedupFirst (ndf.map (·.location))).any hasComma = true
    · have hkey : ETL.locationCityState
          ((dedupFirst (ndf.map (·.location))).any hasComma) l = (pyStrip l, none) := by
        rw [hat]
        exact locationCityState_noComma_true hc
      constructor
      · show (ETL.locationCityState _ l).1 = _
        rw [hkey]
        exact hstripl
      · show (ETL.locationCityState _ l).2 = _
        rw [hkey]
    · have haf : (dedupFirst (ndf.map (·.location))).any hasComma = false :=
        Bool.eq_false_iff.mpr hat
      have hkey : ETL.locationCityState
          ((dedupFirst (ndf.map (·.location))).any hasComma) l = (l, none) := by
        rw [haf]
        rfl
      constructor
      · show (ETL.locationCityState _ l).1 = _
        rw [hkey]
        rfl
      · show (ETL.locationCityState _ l).2 = _
        rw [hkey]

/-- Witness for C8 at the concrete batch `ndfW`: the comma-free location
"Sharjah" keeps the whole string as its city and gets a null state, even
though the other location of the batch contains a comma. -/
theorem c8_witness : locRowW.city = locRowW.location ∧ locRowW.state = none :=
  ((c8_location_split ndfW 0 (by decide)) locRowW (by decide)).2 rfl

/-- C9: when `load_fact_table` consumes the dimension tables that
`create_dimension_tables` produced from the same normalized batch in the
same run, every emitted fact row has non-null `location_id`,
`property_type_id` and `date_id` — none of the three left joins can miss. -/
theorem c9_fact_foreign_keys_non_null (ndf : List ETL.NormRow) (now : ℤ)
    (f : ETL.FactRow)
    (hf : f ∈ ETL.load_fact_table ndf (ETL.create_dimension_tables ndf now)) :
    f.location_id.isSome = true ∧ f.property_type_id.isSome = true ∧
    f.date_id.isSome = true := by
  simp only [ETL.load_fact_table] at hf
  obtain ⟨i, x, hx, rfl⟩ := mem_numberFrom hf
  have hx2 := leftJoin_fst_mem hx
  have hx1 := leftJoin_fst_mem hx2
  refine ⟨?_, ?_, ?_⟩
  · show x.1.1.2.isSome = true
    refine leftJoin_id_isSome hx1 ?_
    intro r hr
    obtain ⟨d, hd, hdl⟩ := dims_location_contains ndf now r hr
    exact ⟨d, hd, beq_iff_eq.mpr hdl⟩
  · show x.1.2.isSome = true
    refine leftJoin_id_isSome hx2 ?_
    intro r1 hr1
    have hr : r1.1 ∈ ndf := leftJoin_fst_mem hr1
    obtain ⟨d, hd, hdl⟩ := dims_ptype_contains ndf now r1.1 hr
    exact ⟨d, hd, beq_iff_eq.mpr hdl⟩
  · show x.2.isSome = true
    refine leftJoin_id_isSome hx ?_
    intro r2 hr2
    have hr1 : r2.1 ∈ _ := leftJoin_fst_mem hr2
    have hr : r2.1.1 ∈ ndf := leftJoin_fst_mem hr1
    obtain ⟨d, hd, hdl⟩ := dims_date_contains ndf now r2.1.1 hr
    exact ⟨d, hd, beq_iff_eq.mpr hdl⟩

/-- Witness for C9 at the concrete batch `ndfW` and its first emitted fact
row. -/
theorem c9_witness :
    factW.location_id.isSome = true ∧ factW.property_type_id.isSome = true ∧
    factW.date_id.isSome = true :=
  c9_fact_foreign_keys_non_null ndfW 0 factW
    (by with_unfolding_all exact List.mem_cons_self _ _)

/-- C5: in a run where exactly the price-correlations query raises,
`execute_analytical_queries` does record the failure as an error entry and
does produce the other seven results — but `generate_html_report` then
treats the truthy error dict as row data, raises while rendering, and the
reporting trigger answers HTTP 500 with no report, not the 200 the claim
states.  This theorem evaluates the embedded code at the failing run. -/
theorem c5_single_query_failure_returns_500 :
    Analytics.execute_analytical_queries oneFailureRun =
      [("summary_stats", .records 1), ("monthly_trends", .records 1),
        ("location_analysis", .records 1),
        ("property_type_distribution", .records 1),
        ("price_correlations", .errorDict "correlation query raised"),
        ("top_10_expensive", .records 1), ("bedroom_distribution", .records 1),
        ("price_brackets", .records 1)] ∧
    Analytics.generate_report oneFailureRun = (500, none) :=
  ⟨rfl, rfl⟩

/-- C10: the duplicate entry point `src/main.py` evaluates `io.StringIO`
without having imported `io`, so every invocation on an object name ending
in ".csv" fails with an uncaught NameError before any transformation or
load step runs. -/
theorem c10_src_main_io_name_error (fileName : String)
    (h : SrcMain.endsWithCsv fileName = true) :
    SrcMain.process_csv fileName =
      .error "NameError: name io is not defined" := by
  unfold SrcMain.process_csv
  rw [h]
  rfl

/-- Witness for C10 at the concrete object name "listings.csv". -/
theorem c10_witness :
    SrcMain.endsWithCsv "listings.csv" = true ∧
    SrcMain.process_csv "listings.csv" =
      .error "NameError: name io is not defined" :=
  ⟨rfl, c10_src_main_io_name_error "listings.csv" rfl⟩

end RealEstate
